import Mathlib

/-!
Verification of the core layout/parsing logic of `xrandr-gui.py`
(xrandr-extend-mirror): the xrandr query-output parser, the mirror-group
detector, the drag-snap engine, the selection-click state machine and the
apply-pending batch loop, shallowly embedded as executable Lean functions.

Machine integers are modelled as `Int`/`Nat` (Python ints are unbounded),
strings as `String`/`List Char` with the ASCII whitespace classes the
regexes in the source use.
-/

namespace XrandrGui

/-- ASCII whitespace, as matched by `\s` in the source's regexes
(`re` module, ASCII inputs). -/
def isWs (c : Char) : Bool :=
  c = ' ' || c = '\t' || c = '\n' || c = '\r' || c = '\x0b' || c = '\x0c'

/-- `\d` of the source's regexes. -/
def isDigit (c : Char) : Bool :=
  '0' ≤ c && c ≤ '9'

/-- `[\d.]` of the rate regex `([\d.]+)\*`. -/
def isRateChar (c : Char) : Bool :=
  isDigit c || c = '.'

/-- Digit string to number, as Python `int()` on the captured group. -/
def digitsToNat (l : List Char) : Nat :=
  l.foldl (fun n c => 10 * n + (c.toNat - '0'.toNat)) 0

/-- The monitor record: the `Display` dataclass of the source.
`x`/`y` are `Int` (the dataclass declares them `int`, which may be
negative); width/height only ever come from digit strings or the
defaults, so they are `Nat`. -/
structure Display where
  name : String
  width : Nat
  height : Nat
  x : Int
  y : Int
  is_primary : Bool
  is_connected : Bool
  modes : List String
  current_mode : String
  current_rate : String
deriving Repr, DecidableEq

/-- Result of matching the header regex
`^(\S+)\s+(connected|disconnected)\s*(primary)?\s*(?:(\d+)x(\d+)\+(\d+)\+(\d+))?`
against a line: captured name, connection state, primary flag and
optional geometry `(w, h, x, y)`. -/
structure Header where
  name : List Char
  is_connected : Bool
  is_primary : Bool
  geom : Option (Nat × Nat × Nat × Nat)
deriving Repr, DecidableEq

/-- The optional geometry group `(?:(\d+)x(\d+)\+(\d+)\+(\d+))?`: a
maximal digit run must be followed by the required literal at each step
(backtracking inside `\d+` cannot succeed because the literal is never a
digit), so the greedy regex semantics is this deterministic scan. -/
def matchGeom (l : List Char) : Option (Nat × Nat × Nat × Nat) :=
  let w := l.takeWhile isDigit
  let r1 := l.dropWhile isDigit
  if w = [] then none else
  match r1 with
  | 'x' :: r2 =>
    let h := r2.takeWhile isDigit
    let r3 := r2.dropWhile isDigit
    if h = [] then none else
    match r3 with
    | '+' :: r4 =>
      let xs := r4.takeWhile isDigit
      let r5 := r4.dropWhile isDigit
      if xs = [] then none else
      match r5 with
      | '+' :: r6 =>
        let ys := r6.takeWhile isDigit
        if ys = [] then none
        else some (digitsToNat w, digitsToNat h, digitsToNat xs, digitsToNat ys)
      | _ => none
    | _ => none
  | _ => none

/-- The part of the header regex after the connection keyword:
`\s*(primary)?\s*(?:geometry)?`. All parts are optional, so this never
fails; `(primary)?` greedily takes the literal when present. -/
def afterConn (nm : List Char) (conn : Bool) (t : List Char) : Header :=
  let t1 := t.dropWhile isWs
  let (prim, t2) :=
    if t1.take 7 = "primary".data then (true, t1.drop 7) else (false, t1)
  let t3 := t2.dropWhile isWs
  { name := nm, is_connected := conn, is_primary := prim, geom := matchGeom t3 }

/-- The header pattern after the captured name: `\s+` (maximal nonempty
whitespace run) then the alternation `connected|disconnected` tried left
to right; everything after the keyword is optional, so a match succeeds
exactly when the keyword does. -/
def matchHeaderRest (nm r1 : List Char) : Option Header :=
  let ws := r1.takeWhile isWs
  let r2 := r1.dropWhile isWs
  if ws = [] then none else
  if r2.take 9 = "connected".data then
    some (afterConn nm true (r2.drop 9))
  else if r2.take 12 = "disconnected".data then
    some (afterConn nm false (r2.drop 12))
  else none

/-- `re.match` of the header pattern on one line. `(\S+)` is the maximal
nonempty non-whitespace prefix (reducing it cannot help: `\S`/`\s` are
disjoint), then the rest of the pattern. -/
def matchHeader (l : List Char) : Option Header :=
  let nm := l.takeWhile (fun c => !isWs c)
  let r1 := l.dropWhile (fun c => !isWs c)
  if nm = [] then none else matchHeaderRest nm r1

/-- Build the `Display` for a connected header, with the source's
defaults `1920x1080+0+0` when the geometry group is absent
(`int(match.group(4)) if match.group(4) else 1920`, etc.). -/
def mkDisplay (h : Header) : Display :=
  let (w, ht, x, y) :=
    match h.geom with
    | some g => g
    | none => (1920, 1080, 0, 0)
  { name := String.mk h.name
    width := w
    height := ht
    x := (x : Int)
    y := (y : Int)
    is_primary := h.is_primary
    is_connected := true
    modes := []
    current_mode := toString w ++ "x" ++ toString ht
    current_rate := "60.00" }

/-- `re.match(r'\s+(\d+x\d+)\s+([\d.]+)', line)`: leading whitespace,
a `WxH` token, whitespace, then a rate token; returns the captured
`WxH` group. Each maximal run must be followed by the required
class-change, so greedy matching is again this deterministic scan. -/
def matchMode (l : List Char) : Option (List Char) :=
  let ws := l.takeWhile isWs
  let r1 := l.dropWhile isWs
  if ws = [] then none else
  let d1 := r1.takeWhile isDigit
  let r2 := r1.dropWhile isDigit
  if d1 = [] then none else
  match r2 with
  | 'x' :: r3 =>
    let d2 := r3.takeWhile isDigit
    let r4 := r3.dropWhile isDigit
    if d2 = [] then none else
    let ws2 := r4.takeWhile isWs
    let r5 := r4.dropWhile isWs
    if ws2 = [] then none else
    let rate := r5.takeWhile isRateChar
    if rate = [] then none else some (d1 ++ 'x' :: d2)
  | _ => none

/-- `re.search(r'([\d.]+)\*', line)`: the earliest position whose maximal
`[\d.]+` run is immediately followed by `*`; returns the captured run. -/
def rateSearch : List Char → Option (List Char)
  | [] => none
  | c :: rest =>
    if isRateChar c then
      let run := (c :: rest).takeWhile isRateChar
      let after := (c :: rest).dropWhile isRateChar
      if after.head? = some '*' then some run else rateSearch rest
    else rateSearch rest

/-- Process one mode line against the current display: append the `WxH`
token once (first-appearance order), and when the line contains `*`
overwrite `current_mode` and — when the rate search succeeds —
`current_rate`. -/
def applyModeLine (d : Display) (l : List Char) : Display :=
  match matchMode l with
  | none => d
  | some modeChars =>
    let mode := String.mk modeChars
    let d1 :=
      if mode ∈ d.modes then d else { d with modes := d.modes ++ [mode] }
    if l.contains '*' then
      let d2 := { d1 with current_mode := mode }
      match rateSearch l with
      | some r => { d2 with current_rate := String.mk r }
      | none => d2
    else d1

/-- Parser state: the finished displays (in append order) and the
current-monitor context. In the source `current_display` is always the
most recently appended element of `displays` (it is assigned only right
before the append and is mutated in place), so the state keeps it
separate and re-appends it at the end / on the next connected header. -/
abbrev ParseState := List Display × Option Display

/-- One line of the parsing loop of `parse_xrandr_output`: a line
matching the header pattern either opens a new connected context (the
display is appended) or — when disconnected — changes nothing (the
source has no else branch, so the previous context stays); otherwise a
line starting with three spaces under a current context is tested as a
mode line. -/
def parseStep (st : ParseState) (line : List Char) : ParseState :=
  match matchHeader line with
  | some h =>
    if h.is_connected then
      (st.1 ++ st.2.toList, some (mkDisplay h))
    else
      st
  | none =>
    match st.2 with
    | some d =>
      if line.take 3 = [' ', ' ', ' '] then
        (st.1, some (applyModeLine d line))
      else st
    | none => st

/-- The parsing loop of `parse_xrandr_output` over the already-split
lines of the query output. -/
def parseLines (lines : List String) : List Display :=
  let st := (lines.map String.data).foldl parseStep ([], none)
  st.1 ++ st.2.toList

/-- `parse_xrandr_output` on a raw query-output string:
`output.split('\n')` then the line loop. -/
def parse_xrandr_output (output : String) : List Display :=
  parseLines (output.splitOn "\n")

/-! ### Mirror group detection (`_find_mirrored_display_groups`) -/

/-- Append a name under its position key, keeping the insertion order of
keys and of names within a key — the behaviour of the Python dict in
`_find_mirrored_display_groups`. -/
def addToGroups (acc : List ((Int × Int) × List String))
    (p : Int × Int) (n : String) : List ((Int × Int) × List String) :=
  match acc with
  | [] => [(p, [n])]
  | (q, g) :: t =>
    if q = p then (q, g ++ [n]) :: t else (q, g) :: addToGroups t p n

/-- `_find_mirrored_display_groups`: group display names by exact
`(x, y)` equality; result is `list(position_groups.values())` in key
insertion order. -/
def find_mirrored_display_groups (displays : List Display) : List (List String) :=
  (displays.foldl (fun acc d => addToGroups acc (d.x, d.y) d.name) []).map Prod.snd

/-- The groups flagged as mirrored in `refresh_displays`: only those of
size `> 1`. -/
def mirroredGroups (displays : List Display) : List (List String) :=
  (find_mirrored_display_groups displays).filter (fun g => 1 < g.length)

/-! ### Selection state machine (`on_display_clicked`) -/

/-- The selection state: the names of the source and target displays
(`source_display` / `target_display`), both optional. -/
structure SelState where
  src : Option String
  tgt : Option String
deriving Repr, DecidableEq

/-- `on_display_clicked` for a click on display `n`, branch for branch:
no source yet → select as source; target free and a different display →
select as target; same as source → deselect source; same as target →
deselect target; otherwise no change.  (The fourth branch is reached
only when a target exists: with no target, a click equal to the source
is caught by the third branch and any other click by the second.) -/
def click (s : SelState) (n : String) : SelState :=
  match s.src with
  | none => { s with src := some n }
  | some sn =>
    if s.tgt = none ∧ n ≠ sn then { s with tgt := some n }
    else if n = sn then { s with src := none }
    else
      match s.tgt with
      | some tn => if n = tn then { s with tgt := none } else s
      | none => s

/-- The cleared selection state (`on_clear_clicked` / startup). -/
def clearedSel : SelState := ⟨none, none⟩

/-- A sequence of display clicks from a given state. -/
def clicks (s : SelState) (ns : List String) : SelState :=
  ns.foldl click s

/-! ### Layout snap engine (`snap_widget_position` and helpers) -/

/-- A widget allocation rectangle in container coordinates
(`get_allocation()`): `x`, `y`, `w`, `h`. -/
structure Rect where
  x : Int
  y : Int
  w : Int
  h : Int
deriving Repr, DecidableEq

/-- A snap candidate: target position for the dragged widget, the other
display's name and the direction tag. -/
structure Cand where
  x : Int
  y : Int
  ref : String
  dir : String
deriving Repr, DecidableEq

/-- The four candidate snap positions relative to one other widget, in
the source's order: right-of, left-of, above, below. -/
def candsOf (dragged : Rect) (n : String) (o : Rect) : List Cand :=
  [ ⟨o.x + o.w, o.y, n, "right-of"⟩
  , ⟨o.x - dragged.w, o.y, n, "left-of"⟩
  , ⟨o.x, o.y - dragged.h, n, "above"⟩
  , ⟨o.x, o.y + o.h, n, "below"⟩ ]

/-- Squared Euclidean distance from the dragged rectangle's top-left
corner to a candidate position (the source compares
`(dx*dx + dy*dy) ** 0.5` against exact thresholds; comparisons of
nonnegative reals agree with comparisons of their squares, so distances
are kept squared). -/
def distSq (dragged : Rect) (c : Cand) : Int :=
  (dragged.x - c.x) * (dragged.x - c.x) + (dragged.y - c.y) * (dragged.y - c.y)

/-- `snap_threshold * 3` squared: `distance < 150` iff `distSq < 22500`. -/
def snapThresholdSq : Int := 150 * 150

/-- One step of the best-snap fold: accept a candidate iff its distance
is strictly below the current minimum (initially infinite) and strictly
below the threshold — `if distance < min_distance and distance <
snap_threshold * 3`. -/
def snapStep (dragged : Rect) (acc : Option (Cand × Int)) (c : Cand) :
    Option (Cand × Int) :=
  let d := distSq dragged c
  match acc with
  | none => if d < snapThresholdSq then some (c, d) else acc
  | some (_, m) => if d < m ∧ d < snapThresholdSq then some (c, d) else acc

/-- The candidate-selection loop of `snap_widget_position`: all other
widgets in insertion order, four directions each, keeping the best
accepted candidate and its distance. -/
def snapFold (dragged : Rect) (draggedName : String)
    (widgets : List (String × Rect)) : Option (Cand × Int) :=
  widgets.foldl
    (fun acc (p : String × Rect) =>
      if p.1 = draggedName then acc
      else (candsOf dragged p.1 p.2).foldl (snapStep dragged) acc)
    none

/-- `best_snap` after the loop (the recorded minimal distance is not
used afterwards). -/
def bestSnap (dragged : Rect) (draggedName : String)
    (widgets : List (String × Rect)) : Option Cand :=
  (snapFold dragged draggedName widgets).map Prod.fst

/-- `_would_overlap`: strict axis-aligned rectangle intersection of the
dragged rectangle placed at `(nx, ny)` against every other widget. -/
def would_overlap (dragged : Rect) (draggedName : String)
    (nx ny : Int) (widgets : List (String × Rect)) : Bool :=
  widgets.any fun p =>
    if p.1 = draggedName then false
    else
      nx < p.2.x + p.2.w && nx + dragged.w > p.2.x &&
      ny < p.2.y + p.2.h && ny + dragged.h > p.2.y

/-- The fixed fallback anchor positions of
`_find_non_overlapping_position`. -/
def testPositions : List (Int × Int) :=
  [(20, 20), (200, 20), (400, 20), (20, 150), (200, 150)]

/-- `_find_non_overlapping_position`: the first anchor position at which
the widget overlaps nothing, or `none` (the widget is then not moved). -/
def find_non_overlapping_position (dragged : Rect) (draggedName : String)
    (widgets : List (String × Rect)) : Option (Int × Int) :=
  testPositions.find? fun p => !would_overlap dragged draggedName p.1 p.2 widgets

/-- Outcome of a drag release: the new container position when the
widget is moved, and the pending-change entry
`(dragged name, reference name, direction)` when one is recorded. -/
structure SnapOutcome where
  newPos : Option (Int × Int)
  pendingAdd : Option (String × String × String)
deriving Repr, DecidableEq

/-- `snap_widget_position`: pick the best candidate; when one exists,
commit it (move + pending entry) unless it would overlap another widget
— in the overlap case nothing happens; when no candidate exists, fall
back to the first non-overlapping anchor position (no pending entry
either way). -/
def snap_widget_position (dragged : Rect) (draggedName : String)
    (widgets : List (String × Rect)) : SnapOutcome :=
  match bestSnap dragged draggedName widgets with
  | some c =>
    if would_overlap dragged draggedName c.x c.y widgets then
      { newPos := none, pendingAdd := none }
    else
      { newPos := some (c.x, c.y), pendingAdd := some (draggedName, c.ref, c.dir) }
  | none =>
    match find_non_overlapping_position dragged draggedName widgets with
    | some p => { newPos := some p, pendingAdd := none }
    | none => { newPos := none, pendingAdd := none }

/-- The flattened candidate enumeration the snap loop walks: all other
widgets in order, four directions each. -/
def candList (dragged : Rect) (draggedName : String)
    (widgets : List (String × Rect)) : List Cand :=
  (widgets.filter (fun p => p.1 ≠ draggedName)).flatMap
    (fun p => candsOf dragged p.1 p.2)

/-- The minimum squared candidate distance, `none` for an empty list. -/
def minDist? (dragged : Rect) : List Cand → Option Int
  | [] => none
  | c :: cs =>
    match minDist? dragged cs with
    | none => some (distSq dragged c)
    | some m => some (min (distSq dragged c) m)

/-- Modelled from the spec's words, for the refinement claim about the
snap-arbitration rule: accept a snap exactly when the globally minimum
candidate distance is strictly below the threshold, and pick the
earliest candidate attaining that minimum in enumeration order. -/
def specSnapChoice (dragged : Rect) (cands : List Cand) : Option Cand :=
  match minDist? dragged cands with
  | none => none
  | some m =>
    if m < snapThresholdSq then
      cands.find? (fun c => distSq dragged c == m)
    else none

/-! ### Apply-pending batch (`on_apply_layout_clicked`) -/

/-- One pending layout change: display name and its
`(relative_to, direction)` value. -/
abbrev PendingEntry := String × String × String

/-- The outcome of running one external command: an exception during
invocation, or a completed run with exit code and stderr text. -/
inductive RunResult where
  | exc (msg : String)
  | ran (code : Int) (stderr : String)
deriving Repr, DecidableEq

/-- The command built for one pending entry:
`['xrandr', '--output', display_name, f'--{direction}', relative_to]` —
no `--mode` or `--rate` argument. -/
def mkCmd (e : PendingEntry) : List String :=
  ["xrandr", "--output", e.1, "--" ++ e.2.2, e.2.1]

/-- The status message recorded for one entry, if any: failures report
the stripped stderr text, or `"Unknown error"` when it is empty;
exceptions report the exception text; successes report nothing. -/
def msgOf (env : PendingEntry → RunResult) (e : PendingEntry) : Option String :=
  match env e with
  | .ran c stderr =>
    if c = 0 then none
    else
      some ("Failed to position " ++ e.1 ++ ": " ++
        (if stderr.trim = "" then "Unknown error" else stderr.trim))
  | .exc m => some ("Error positioning " ++ e.1 ++ ": " ++ m)

/-- Result of the apply-pending handler: the commands attempted in
order, the per-entry status messages, the success count, the
pending-change map afterwards and the widget pending flags afterwards. -/
structure ApplyOutcome where
  attempted : List (List String)
  messages : List String
  successCount : Nat
  pendingAfter : List PendingEntry
  flagsAfter : List (String × Bool)
deriving Repr, DecidableEq

/-- The per-entry loop of `on_apply_layout_clicked`: every entry is
attempted (the `try/except` around each invocation keeps the loop
going); `env` gives each invocation's result. -/
def applyLoop (env : PendingEntry → RunResult) :
    List PendingEntry → List (List String) × List String × Nat
  | [] => ([], [], 0)
  | e :: rest =>
    let (cmds, msgs, n) := applyLoop env rest
    match msgOf env e with
    | none => (mkCmd e :: cmds, msgs, n + 1)
    | some m => (mkCmd e :: cmds, m :: msgs, n)

/-- `on_apply_layout_clicked`: early return when the pending map is
empty; otherwise run the loop over all entries, then clear the pending
map and every widget's pending flag unconditionally. -/
def on_apply_layout_clicked (pending : List PendingEntry)
    (flags : List (String × Bool)) (env : PendingEntry → RunResult) :
    ApplyOutcome :=
  if pending = [] then
    { attempted := [], messages := [], successCount := 0,
      pendingAfter := pending, flagsAfter := flags }
  else
    let (cmds, msgs, n) := applyLoop env pending
    { attempted := cmds, messages := msgs, successCount := n,
      pendingAfter := [], flagsAfter := flags.map (fun f => (f.1, false)) }

/-! ## General list helpers -/

theorem takeWhile_append_all {α : Type} {p : α → Bool} :
    ∀ (l₁ l₂ : List α), (∀ c ∈ l₁, p c = true) →
      (l₁ ++ l₂).takeWhile p = l₁ ++ l₂.takeWhile p := by
  intro l₁ l₂ h
  induction l₁ with
  | nil => simp
  | cons a t ih =>
    simp only [List.cons_append, List.takeWhile_cons, h a (List.mem_cons_self a t)]
    simp only [if_true]
    rw [ih fun c hc => h c (List.mem_cons_of_mem a hc)]

theorem dropWhile_append_all {α : Type} {p : α → Bool} :
    ∀ (l₁ l₂ : List α), (∀ c ∈ l₁, p c = true) →
      (l₁ ++ l₂).dropWhile p = l₂.dropWhile p := by
  intro l₁ l₂ h
  induction l₁ with
  | nil => simp
  | cons a t ih =>
    simp only [List.cons_append, List.dropWhile_cons, h a (List.mem_cons_self a t)]
    simp only [if_true]
    exact ih fun c hc => h c (List.mem_cons_of_mem a hc)

/-! ## Parser lemmas -/

/-- On a line of the form `name ++ ' ' ++ rest` with a nonempty
whitespace-free name, the header regex captures exactly `name` and
proceeds on the rest. -/
theorem matchHeader_split (nm rest : List Char) (h1 : nm ≠ [])
    (h2 : ∀ c ∈ nm, isWs c = false) :
    matchHeader (nm ++ ' ' :: rest) = matchHeaderRest nm (' ' :: rest) := by
  have hp : ∀ c ∈ nm, (!isWs c) = true := fun c hc => by
    rw [h2 c hc]; rfl
  unfold matchHeader
  rw [takeWhile_append_all nm (' ' :: rest) hp,
      dropWhile_append_all nm (' ' :: rest) hp]
  have ht : (' ' :: rest).takeWhile (fun c => !isWs c) = [] := by
    simp [List.takeWhile_cons, isWs]
  have hd : (' ' :: rest).dropWhile (fun c => !isWs c) = ' ' :: rest := by
    simp [List.dropWhile_cons, isWs]
  rw [ht, hd, List.append_nil]
  simp [h1]

/-! ## Claim theorems: parser -/

/-- C3: a query-output block of one connected header line with geometry
`1920x1080+0+0` followed by the mode lines `   1920x1080     60.00*+`
and `   1280x720      59.94` parses to exactly one monitor with the
header's name, connected, `current_mode = "1920x1080"`,
`current_rate = "60.00"` and `modes = ["1920x1080", "1280x720"]` in
first-appearance order. -/
theorem parse_block_example (nm : List Char) (h1 : nm ≠ [])
    (h2 : ∀ c ∈ nm, isWs c = false) :
    parseLines [String.mk (nm ++ ' ' :: "connected 1920x1080+0+0".data),
                "   1920x1080     60.00*+", "   1280x720      59.94"]
      = [{ name := String.mk nm, width := 1920, height := 1080, x := 0, y := 0,
           is_primary := false, is_connected := true,
           modes := ["1920x1080", "1280x720"],
           current_mode := "1920x1080", current_rate := "60.00" }] := by
  have hH : matchHeader (nm ++ ' ' :: "connected 1920x1080+0+0".data)
      = some ⟨nm, true, false, some (1920, 1080, 0, 0)⟩ := by
    rw [matchHeader_split nm _ h1 h2]; rfl
  unfold parseLines
  rw [show List.map String.data
        [String.mk (nm ++ ' ' :: "connected 1920x1080+0+0".data),
         "   1920x1080     60.00*+", "   1280x720      59.94"]
      = [nm ++ ' ' :: "connected 1920x1080+0+0".data,
         "   1920x1080     60.00*+".data, "   1280x720      59.94".data] from rfl]
  rw [List.foldl_cons]
  rw [show parseStep ([], none) (nm ++ ' ' :: "connected 1920x1080+0+0".data)
      = ([], some (mkDisplay ⟨nm, true, false, some (1920, 1080, 0, 0)⟩)) from by
    simp [parseStep, hH]]
  rfl

/-- Witness for C3 at the concrete name `HDMI-1`. -/
theorem parse_block_example_witness :
    ("HDMI-1".data ≠ [] ∧ ∀ c ∈ "HDMI-1".data, isWs c = false) ∧
    parseLines [String.mk ("HDMI-1".data ++ ' ' :: "connected 1920x1080+0+0".data),
                "   1920x1080     60.00*+", "   1280x720      59.94"]
      = [{ name := String.mk "HDMI-1".data, width := 1920, height := 1080,
           x := 0, y := 0, is_primary := false, is_connected := true,
           modes := ["1920x1080", "1280x720"],
           current_mode := "1920x1080", current_rate := "60.00" }] :=
  ⟨⟨by decide, by decide⟩,
   parse_block_example "HDMI-1".data (by decide) (by decide)⟩

/-- C9: every header line that matches as connected but carries no
geometry token — whatever its name, `primary` marker, whitespace or
trailing tokens — parses to a monitor with exactly the default geometry
`width = 1920`, `height = 1080`, `x = 0`, `y = 0`. -/
theorem missing_geometry_defaults (line : List Char) (hd : Header)
    (h1 : matchHeader line = some hd) (h2 : hd.is_connected = true)
    (h3 : hd.geom = none) :
    parseLines [String.mk line]
      = [{ name := String.mk hd.name, width := 1920, height := 1080,
           x := 0, y := 0, is_primary := hd.is_primary, is_connected := true,
           modes := [], current_mode := "1920x1080",
           current_rate := "60.00" }] := by
  unfold parseLines
  rw [show List.map String.data [String.mk line] = [line] from rfl]
  rw [List.foldl_cons, List.foldl_nil]
  rw [show parseStep ([], none) line = ([], some (mkDisplay hd)) from by
    simp [parseStep, h1, h2]]
  show [mkDisplay hd] = _
  unfold mkDisplay
  rw [h3]
  rfl

/-- Witness for C9 on a geometry-free connected header that also
carries trailing tokens. -/
theorem missing_geometry_defaults_witness :
    matchHeader "DP-2 connected (normal left inverted)".data
      = some ⟨"DP-2".data, true, false, none⟩ ∧
    (⟨"DP-2".data, true, false, none⟩ : Header).is_connected = true ∧
    (⟨"DP-2".data, true, false, none⟩ : Header).geom = none ∧
    parseLines [String.mk "DP-2 connected (normal left inverted)".data]
      = [{ name := String.mk "DP-2".data, width := 1920, height := 1080,
           x := 0, y := 0, is_primary := false, is_connected := true,
           modes := [], current_mode := "1920x1080",
           current_rate := "60.00" }] :=
  ⟨by decide, rfl, rfl,
   missing_geometry_defaults "DP-2 connected (normal left inverted)".data
     ⟨"DP-2".data, true, false, none⟩ (by decide) rfl rfl⟩

/-- C4 (counterexample): the mode list of a connected monitor parsed
earlier does receive an indented mode line that follows a
`disconnected` header, because a disconnected header does not reset the
current-monitor context — refuting the claim that headers start a new
context regardless of connection state. -/
theorem disconnected_context_counterexample :
    (parseLines ["HDMI-1 connected 1920x1080+0+0", "DP-1 disconnected",
        "   1280x720      59.94"]).map (fun d => (d.name, d.modes))
      = [("HDMI-1", ["1280x720"])] := by decide

/-- C4 (amended): a header line whose connection state is not
`connected` leaves the parser state — and hence the current-monitor
context — completely unchanged; indented mode lines that follow it are
therefore appended to the most recently parsed connected monitor. -/
theorem disconnected_header_keeps_context (st : ParseState)
    (line : List Char) (hd : Header) (h1 : matchHeader line = some hd)
    (h2 : hd.is_connected = false) :
    parseStep st line = st := by
  simp [parseStep, h1, h2]

/-- Witness for the amended C4 on the concrete line `DP-1 disconnected`. -/
theorem disconnected_header_keeps_context_witness :
    matchHeader "DP-1 disconnected".data
      = some ⟨"DP-1".data, false, false, none⟩ ∧
    parseStep ([], none) "DP-1 disconnected".data = ([], none) :=
  ⟨by decide,
   disconnected_header_keeps_context ([], none) "DP-1 disconnected".data
     ⟨"DP-1".data, false, false, none⟩ (by decide) rfl⟩

/-- C8 (counterexample): a connected header whose geometry token carries
a negative offset (`1280x720-100+0`) does not parse to that geometry —
the geometry group of the regex accepts only `+`-separated nonnegative
offsets, so the default `1920x1080+0+0` is substituted instead. -/
theorem negative_geometry_counterexample :
    (parseLines ["DP-1 connected 1280x720-100+0"]).map
        (fun d => (d.width, d.height, d.x, d.y))
      = [(1920, 1080, (0 : Int), (0 : Int))] ∧
    ((1920, 1080, (0 : Int), (0 : Int)) : Nat × Nat × Int × Int)
      ≠ (1280, 720, (-100 : Int), (0 : Int)) :=
  ⟨by decide, by decide⟩

/-- Helper: a mode line never changes a display's coordinates. -/
theorem applyModeLine_pos (d : Display) (l : List Char) :
    (applyModeLine d l).x = d.x ∧ (applyModeLine d l).y = d.y := by
  unfold applyModeLine
  cases hmm : matchMode l with
  | none => exact ⟨rfl, rfl⟩
  | some m =>
    by_cases hm : (String.mk m) ∈ d.modes <;>
      by_cases hs : '*' ∈ l <;>
        cases hr : rateSearch l <;>
          simp [hm, hs, hr]

/-- Helper: a freshly built display has nonnegative coordinates (the
geometry offsets are parsed from digit runs; the defaults are zero). -/
theorem mkDisplay_pos (h : Header) :
    0 ≤ (mkDisplay h).x ∧ 0 ≤ (mkDisplay h).y := by
  cases hg : h.geom with
  | none => simp [mkDisplay, hg]
  | some g =>
    obtain ⟨w, ht, x, y⟩ := g
    simp only [mkDisplay, hg]
    exact ⟨Int.natCast_nonneg _, Int.natCast_nonneg _⟩

/-- Invariant of the parse state: every produced coordinate is
nonnegative. -/
def PosOk (st : ParseState) : Prop :=
  ∀ d ∈ st.1 ++ st.2.toList, 0 ≤ d.x ∧ 0 ≤ d.y

/-- Each parsing step preserves nonnegativity of coordinates. -/
theorem parseStep_posOk (st : ParseState) (line : List Char)
    (h : PosOk st) : PosOk (parseStep st line) := by
  unfold parseStep
  cases hh : matchHeader line with
  | some hd =>
    by_cases hc : hd.is_connected = true
    · simp only [hc, if_true]
      intro d hdm
      simp only [List.append_assoc, List.mem_append] at hdm
      rcases hdm with h1 | h2
      · exact h d (List.mem_append.mpr (.inl h1))
      · rcases h2 with h3 | h4
        · exact h d (List.mem_append.mpr (.inr h3))
        · simp only [Option.toList, List.mem_singleton] at h4
          subst h4; exact mkDisplay_pos hd
    · simp only [hc, if_false]; exact h
  | none =>
    cases hcur : st.2 with
    | none => exact h
    | some d0 =>
      by_cases ht : line.take 3 = [' ', ' ', ' ']
      · simp only [ht, if_true]
        intro d hdm
        rcases List.mem_append.mp hdm with h1 | h2
        · exact h d (by rw [hcur]; exact List.mem_append.mpr (.inl h1))
        · simp only [Option.toList, List.mem_singleton] at h2
          subst h2
          have hx := applyModeLine_pos d0 line
          have h0 := h d0 (by rw [hcur]; exact List.mem_append.mpr (.inr (by simp)))
          exact ⟨hx.1 ▸ h0.1, hx.2 ▸ h0.2⟩
      · simp only [ht, if_false]; exact h

/-- C8 (amended): the model's coordinate type admits negative values,
but the parser can never produce one — the geometry pattern accepts
only `+`-separated nonnegative offsets, and a header with a negative
offset falls back to the default geometry. Every display returned by
the parser has nonnegative `x` and `y`. -/
theorem parser_nonnegative_positions (lines : List String) (d : Display)
    (hmem : d ∈ parseLines lines) : 0 ≤ d.x ∧ 0 ≤ d.y := by
  suffices h : ∀ (ls : List (List Char)) (st : ParseState), PosOk st →
      PosOk (ls.foldl parseStep st) by
    have hall := h (lines.map String.data) ([], none)
      (by intro d hd; simp at hd)
    exact hall d hmem
  intro ls
  induction ls with
  | nil => intro st h; exact h
  | cons a t ih => intro st h; exact ih _ (parseStep_posOk st a h)

/-- Witness for the amended C8 on a concrete parsed display. -/
theorem parser_nonnegative_positions_witness :
    ({ name := "A", width := 12, height := 34, x := 5, y := 6,
       is_primary := false, is_connected := true, modes := [],
       current_mode := "12x34", current_rate := "60.00" } : Display)
      ∈ parseLines ["A connected 12x34+5+6"] ∧
    (0 : Int) ≤ 5 ∧ (0 : Int) ≤ 6 :=
  ⟨by decide,
   parser_nonnegative_positions ["A connected 12x34+5+6"]
     { name := "A", width := 12, height := 34, x := 5, y := 6,
       is_primary := false, is_connected := true, modes := [],
       current_mode := "12x34", current_rate := "60.00" } (by decide)⟩

/-! ## Claim theorems: selection state machine -/

/-- A click is benign when it does not land on the current target while
the source slot is empty. -/
def okClick (s : SelState) (n : String) : Bool :=
  !(s.src = none && s.tgt = some n)

/-- Every click along the sequence is benign. -/
def runOk : SelState → List String → Bool
  | _, [] => true
  | s, n :: ns => okClick s n && runOk (click s n) ns

/-- The source and target never name the same display. -/
def noClash (s : SelState) : Prop :=
  ∀ n, s.src = some n → s.tgt ≠ some n

/-- C5 (counterexample): the click sequence A, B, A, B from the cleared
state leaves the same display selected as both source and target —
deselecting the source and then clicking the current target re-selects
it as source — refuting the claim that source and target can never
coincide. -/
theorem selection_source_eq_target_counterexample :
    (clicks clearedSel ["A", "B", "A", "B"]).src
      = (clicks clearedSel ["A", "B", "A", "B"]).tgt ∧
    (clicks clearedSel ["A", "B", "A", "B"]).src = some "B" := by decide

/-- Helper: one benign click preserves the no-clash invariant. -/
theorem click_noClash (s : SelState) (n : String) (h : noClash s)
    (hok : okClick s n = true) : noClash (click s n) := by
  rcases s with ⟨src, tgt⟩
  unfold noClash at *
  cases src <;> cases tgt <;>
    simp_all [click, okClick] <;>
    split_ifs <;> simp_all

/-- Helper: a benign click sequence preserves the no-clash invariant. -/
theorem clicks_noClash (ns : List String) (s : SelState) (h : noClash s)
    (hok : runOk s ns = true) : noClash (clicks s ns) := by
  induction ns generalizing s with
  | nil => exact h
  | cons a t ih =>
    rw [runOk] at hok
    rw [Bool.and_eq_true] at hok
    exact ih (click s a) (click_noClash s a h hok.1) hok.2

/-- C5 (amended): toggle semantics hold — clicking a display twice from
the cleared state clears the selection again, and clicking two distinct
displays selects them as source then target — and along any click
sequence in which no click lands on the current target while the source
slot is empty, the source and target never name the same display.
(Without that restriction the invariant fails, see the A, B, A, B
counterexample.) -/
theorem selection_toggle_invariant (ns : List String)
    (hok : runOk clearedSel ns = true) :
    (∀ n, (clicks clearedSel ns).src = some n →
        (clicks clearedSel ns).tgt ≠ some n) ∧
    (∀ a, clicks clearedSel [a, a] = clearedSel) ∧
    (∀ a b, a ≠ b → clicks clearedSel [a, b] = ⟨some a, some b⟩) := by
  refine ⟨clicks_noClash ns clearedSel (by intro n h; cases h) hok, ?_, ?_⟩
  · intro a; simp [clicks, click, clearedSel]
  · intro a b hab; simp [clicks, click, clearedSel, hab, Ne.symm hab]

/-- Witness for the amended C5 on concrete click sequences. -/
theorem selection_toggle_invariant_witness :
    runOk clearedSel ["A", "B"] = true ∧
    ((clicks clearedSel ["A", "B"]).src = some "A" →
      (clicks clearedSel ["A", "B"]).tgt ≠ some "A") ∧
    clicks clearedSel ["C", "C"] = clearedSel ∧
    clicks clearedSel ["A", "B"] = ⟨some "A", some "B"⟩ :=
  ⟨by decide, (selection_toggle_invariant ["A", "B"] (by decide)).1 "A",
   (selection_toggle_invariant ["A", "B"] (by decide)).2.1 "C",
   (selection_toggle_invariant ["A", "B"] (by decide)).2.2 "A" "B" (by decide)⟩

/-! ## Claim theorems: mirror grouping -/

/-- Helper: appending one name into the position-keyed groups adds
exactly that name to the multiset of grouped names. -/
theorem addToGroups_flatten_perm (acc : List ((Int × Int) × List String))
    (p : Int × Int) (n : String) :
    ((addToGroups acc p n).map Prod.snd).flatten.Perm
      (((acc.map Prod.snd).flatten) ++ [n]) := by
  induction acc with
  | nil => simp [addToGroups]
  | cons hd t ih =>
    rcases hd with ⟨q, g⟩
    by_cases hq : q = p
    · subst hq
      have hred : addToGroups ((q, g) :: t) q n = (q, g ++ [n]) :: t := by
        simp [addToGroups]
      rw [hred, List.map_cons, List.flatten_cons, List.append_assoc,
          List.map_cons, List.flatten_cons, List.append_assoc]
      exact List.Perm.append_left g List.perm_append_comm
    · have hred : addToGroups ((q, g) :: t) p n
          = (q, g) :: addToGroups t p n := by
        simp [addToGroups, hq]
      rw [hred, List.map_cons, List.flatten_cons, List.map_cons,
          List.flatten_cons, List.append_assoc]
      exact List.Perm.append_left g ih

/-- Helper: the grouping fold distributes every display name into
exactly one group. -/
theorem groups_foldl_perm (ds : List Display)
    (acc : List ((Int × Int) × List String)) :
    (((ds.foldl (fun a d => addToGroups a (d.x, d.y) d.name) acc).map
        Prod.snd).flatten).Perm
      ((acc.map Prod.snd).flatten ++ ds.map Display.name) := by
  induction ds generalizing acc with
  | nil => simp
  | cons d t ih =>
    rw [List.foldl_cons]
    refine (ih _).trans ?_
    refine (List.Perm.append_right _
      (addToGroups_flatten_perm acc _ d.name)).trans ?_
    rw [List.map_cons, List.append_assoc, List.singleton_append]

/-- C6: mirror grouping partitions the monitor list by exact `(x, y)`
equality — the concatenation of all groups is a permutation of the
monitor names, so every monitor lands in exactly one group — and for
three monitors at `(0,0)`, `(0,0)`, `(1920,0)` the groups are one
2-element group and one 1-element group, of which only the 2-element
group is flagged as mirrored. -/
theorem mirror_grouping_partition :
    (∀ ds : List Display,
      ((find_mirrored_display_groups ds).flatten).Perm (ds.map Display.name)) ∧
    find_mirrored_display_groups
        [{ name := "M1", width := 1920, height := 1080, x := 0, y := 0,
           is_primary := true, is_connected := true, modes := [],
           current_mode := "1920x1080", current_rate := "60.00" },
         { name := "M2", width := 1920, height := 1080, x := 0, y := 0,
           is_primary := false, is_connected := true, modes := [],
           current_mode := "1920x1080", current_rate := "60.00" },
         { name := "M3", width := 1920, height := 1080, x := 1920, y := 0,
           is_primary := false, is_connected := true, modes := [],
           current_mode := "1920x1080", current_rate := "60.00" }]
      = [["M1", "M2"], ["M3"]] ∧
    mirroredGroups
        [{ name := "M1", width := 1920, height := 1080, x := 0, y := 0,
           is_primary := true, is_connected := true, modes := [],
           current_mode := "1920x1080", current_rate := "60.00" },
         { name := "M2", width := 1920, height := 1080, x := 0, y := 0,
           is_primary := false, is_connected := true, modes := [],
           current_mode := "1920x1080", current_rate := "60.00" },
         { name := "M3", width := 1920, height := 1080, x := 1920, y := 0,
           is_primary := false, is_connected := true, modes := [],
           current_mode := "1920x1080", current_rate := "60.00" }]
      = [["M1", "M2"]] := by
  refine ⟨?_, by decide, by decide⟩
  intro ds
  have h := groups_foldl_perm ds []
  simpa [find_mirrored_display_groups] using h

/-! ## Claim theorems: apply-pending batch -/

/-- Helper: the apply loop attempts every entry in order, collects
exactly the per-entry failure messages, and counts the successes. -/
theorem applyLoop_eq (env : PendingEntry → RunResult) (l : List PendingEntry) :
    applyLoop env l
      = (l.map mkCmd, l.filterMap (msgOf env),
         l.countP (fun e => (msgOf env e).isNone)) := by
  induction l with
  | nil => simp [applyLoop]
  | cons e t ih =>
    cases hm : msgOf env e <;>
      simp [applyLoop, ih, hm, List.filterMap_cons, List.countP_cons]

/-- C7: apply-pending issues exactly one reposition command per pending
entry (output name, direction flag, reference — no mode/rate), attempts
every entry regardless of other entries' failures or exceptions, and
reports each entry that exits non-zero with its stripped stderr text,
or `"Unknown error"` when that is empty. -/
theorem apply_pending_independent_failures (pending : List PendingEntry)
    (flags : List (String × Bool)) (env : PendingEntry → RunResult) :
    (on_apply_layout_clicked pending flags env).attempted
      = pending.map mkCmd ∧
    (on_apply_layout_clicked pending flags env).messages
      = pending.filterMap (msgOf env) ∧
    ∀ e ∈ pending, ∀ c st, env e = .ran c st → c ≠ 0 →
      ("Failed to position " ++ e.1 ++ ": "
          ++ (if st.trim = "" then "Unknown error" else st.trim))
        ∈ (on_apply_layout_clicked pending flags env).messages := by
  have hmem : ∀ e ∈ pending, ∀ c st, env e = .ran c st → c ≠ 0 →
      ("Failed to position " ++ e.1 ++ ": "
          ++ (if st.trim = "" then "Unknown error" else st.trim))
        ∈ pending.filterMap (msgOf env) := by
    intro e he c st henv hc
    refine List.mem_filterMap.mpr ⟨e, he, ?_⟩
    simp [msgOf, henv, hc]
  by_cases hp : pending = []
  · subst hp
    refine ⟨rfl, rfl, ?_⟩
    intro e he; cases he
  · unfold on_apply_layout_clicked
    rw [if_neg hp]
    simp only [applyLoop_eq]
    exact ⟨trivial, trivial, hmem⟩

/-- Witness for C7: with every invocation failing, each entry is still
attempted and reported. -/
theorem apply_pending_independent_failures_witness :
    (("A", "S", "right-of") : PendingEntry)
        ∈ [(("A", "S", "right-of") : PendingEntry), ("B", "S", "left-of")] ∧
    (fun (_ : PendingEntry) => RunResult.ran 1 " boom ")
        ("A", "S", "right-of") = RunResult.ran 1 " boom " ∧
    (1 : Int) ≠ 0 ∧
    ("Failed to position " ++ "A" ++ ": "
        ++ (if (" boom " : String).trim = "" then "Unknown error"
            else (" boom " : String).trim))
      ∈ (on_apply_layout_clicked
          [(("A", "S", "right-of") : PendingEntry), ("B", "S", "left-of")]
          [("A", true), ("B", true)]
          (fun _ => RunResult.ran 1 " boom ")).messages :=
  ⟨by decide, rfl, by decide,
   (apply_pending_independent_failures
      [("A", "S", "right-of"), ("B", "S", "left-of")]
      [("A", true), ("B", true)] (fun _ => RunResult.ran 1 " boom ")).2.2
     ("A", "S", "right-of") (by decide) 1 " boom " rfl (by decide)⟩

/-- C10: whenever there are pending entries, the handler ends with the
pending map empty and every widget's pending flag cleared, regardless
of the invocation results — even when every invocation failed, the
failed entries are discarded, not retained. -/
theorem apply_pending_clears_state (pending : List PendingEntry)
    (flags : List (String × Bool)) (env : PendingEntry → RunResult)
    (hne : pending ≠ []) :
    (on_apply_layout_clicked pending flags env).pendingAfter = [] ∧
    (∀ f ∈ (on_apply_layout_clicked pending flags env).flagsAfter,
        f.2 = false) ∧
    (on_apply_layout_clicked pending flags env).flagsAfter.map Prod.fst
      = flags.map Prod.fst := by
  unfold on_apply_layout_clicked
  rw [if_neg hne]
  refine ⟨rfl, ?_, by simp⟩
  intro f hf
  simp only [List.mem_map] at hf
  obtain ⟨g, _, hg⟩ := hf
  rw [← hg]

/-- Witness for C10: one pending entry whose invocation fails is still
discarded and the flag cleared. -/
theorem apply_pending_clears_state_witness :
    ([(("A", "S", "right-of") : PendingEntry)] ≠ []) ∧
    (on_apply_layout_clicked [(("A", "S", "right-of") : PendingEntry)]
        [("A", true)] (fun _ => RunResult.ran 1 "err")).pendingAfter = [] ∧
    (∀ f ∈ (on_apply_layout_clicked [(("A", "S", "right-of") : PendingEntry)]
        [("A", true)] (fun _ => RunResult.ran 1 "err")).flagsAfter,
        f.2 = false) ∧
    (on_apply_layout_clicked [(("A", "S", "right-of") : PendingEntry)]
        [("A", true)] (fun _ => RunResult.ran 1 "err")).flagsAfter.map Prod.fst
      = [("A", true)].map Prod.fst :=
  ⟨by decide,
   apply_pending_clears_state [("A", "S", "right-of")] [("A", true)]
     (fun _ => RunResult.ran 1 "err") (by decide)⟩

/-! ## Claim theorems: snap engine -/

theorem minDist?_eq_none (dragged : Rect) (l : List Cand) :
    minDist? dragged l = none ↔ l = [] := by
  cases l with
  | nil => simp [minDist?]
  | cons x t =>
    constructor
    · intro h
      rw [minDist?] at h
      cases ht : minDist? dragged t <;> rw [ht] at h <;> cases h
    · intro h; cases h

theorem minDist?_concat (dragged : Rect) (l : List Cand) (c : Cand) :
    minDist? dragged (l ++ [c])
      = some (match minDist? dragged l with
              | none => distSq dragged c
              | some m => min m (distSq dragged c)) := by
  induction l with
  | nil => rfl
  | cons x t ih =>
    rw [List.cons_append]
    show minDist? dragged (x :: (t ++ [c]))
      = some (match minDist? dragged (x :: t) with
              | none => distSq dragged c
              | some m => min m (distSq dragged c))
    rw [minDist?, ih, minDist?]
    cases ht : minDist? dragged t with
    | none => simp [min_comm]
    | some m => simp [min_assoc]

theorem minDist?_le (dragged : Rect) (l : List Cand) (m : Int)
    (h : minDist? dragged l = some m) :
    ∀ c ∈ l, m ≤ distSq dragged c := by
  induction l generalizing m with
  | nil => cases h
  | cons x t ih =>
    rw [minDist?] at h
    cases ht : minDist? dragged t with
    | none =>
      rw [ht] at h
      cases h
      intro c hc
      rcases List.mem_cons.mp hc with h1 | h2
      · subst h1; exact le_refl _
      · rw [(minDist?_eq_none dragged t).mp ht] at h2; cases h2
    | some mt =>
      rw [ht] at h
      cases h
      intro c hc
      rcases List.mem_cons.mp hc with h1 | h2
      · subst h1; exact min_le_left _ _
      · exact le_trans (min_le_right _ _) (ih mt ht c h2)

theorem minDist?_find_some (dragged : Rect) (l : List Cand) (m : Int)
    (h : minDist? dragged l = some m) :
    ∃ c₀, l.find? (fun c => distSq dragged c == m) = some c₀ := by
  induction l generalizing m with
  | nil => cases h
  | cons x t ih =>
    by_cases hx : distSq dragged x = m
    · exact ⟨x, by simp [List.find?_cons, hx]⟩
    · rw [minDist?] at h
      cases ht : minDist? dragged t with
      | none =>
        rw [ht] at h; cases h
        exact absurd rfl hx
      | some mt =>
        rw [ht] at h
        cases h
        have hm : min (distSq dragged x) mt = mt := by
          rcases min_cases (distSq dragged x) mt with ⟨h1, _⟩ | ⟨h1, _⟩
          · exact absurd h1.symm hx
          · exact h1
        rw [hm] at hx ⊢
        obtain ⟨c₀, hc₀⟩ := ih mt ht
        have hbx : (distSq dragged x == mt) = false :=
          beq_eq_false_iff_ne.mpr hx
        exact ⟨c₀, by simp [List.find?_cons, hbx, hc₀]⟩

/-- The selected candidate together with its recorded distance. -/
def specSnapPair (dragged : Rect) (l : List Cand) : Option (Cand × Int) :=
  match minDist? dragged l with
  | none => none
  | some m =>
    if m < snapThresholdSq then
      (l.find? (fun c => distSq dragged c == m)).map (fun c => (c, m))
    else none

theorem find?_distSq_none (dragged : Rect) (t : List Cand) (d : Int)
    (h : ∀ x ∈ t, distSq dragged x ≠ d) :
    t.find? (fun x => distSq dragged x == d) = none :=
  List.find?_eq_none.mpr (fun x hx => by simp [h x hx])

/-- The selection fold keeps the first candidate attaining the global
minimum distance, accepted only below the threshold. -/
theorem foldl_snapStep_spec (dragged : Rect) (l : List Cand) :
    l.foldl (snapStep dragged) none = specSnapPair dragged l := by
  induction l using List.reverseRecOn with
  | nil => rfl
  | append_singleton t c ih =>
    rw [List.foldl_append, List.foldl_cons, List.foldl_nil, ih]
    rw [specSnapPair, specSnapPair, minDist?_concat]
    cases ht : minDist? dragged t with
    | none =>
      have hnil := (minDist?_eq_none dragged t).mp ht
      subst hnil
      by_cases hc : distSq dragged c < snapThresholdSq
      · simp [snapStep, hc, List.find?_cons]
      · simp [snapStep, hc]
    | some m =>
      by_cases hm : m < snapThresholdSq
      · obtain ⟨c₀, hc₀⟩ := minDist?_find_some dragged t m ht
        by_cases hdc : distSq dragged c < m
        · have hmin : min m (distSq dragged c) = distSq dragged c :=
            min_eq_right (le_of_lt hdc)
          have hthr : distSq dragged c < snapThresholdSq := lt_trans hdc hm
          have hfind : (t ++ [c]).find?
              (fun x => distSq dragged x == distSq dragged c) = some c := by
            rw [List.find?_append,
                find?_distSq_none dragged t (distSq dragged c)
                  (fun x hx he =>
                    absurd (he ▸ minDist?_le dragged t m ht x hx)
                      (not_le.mpr hdc))]
            simp [List.find?_cons]
          simp [snapStep, hm, hc₀, hdc, hthr, hmin, hfind]
        · have hmin : min m (distSq dragged c) = m := min_eq_left (not_lt.mp hdc)
          have hfind : (t ++ [c]).find? (fun x => distSq dragged x == m)
              = some c₀ := by
            rw [List.find?_append, hc₀]; rfl
          simp [snapStep, hm, hc₀, hdc, hmin, hfind]
      · by_cases hdc : distSq dragged c < snapThresholdSq
        · have hdm : distSq dragged c < m := lt_of_lt_of_le hdc (not_lt.mp hm)
          have hmin : min m (distSq dragged c) = distSq dragged c :=
            min_eq_right (le_of_lt hdm)
          have hfind : (t ++ [c]).find?
              (fun x => distSq dragged x == distSq dragged c) = some c := by
            rw [List.find?_append,
                find?_distSq_none dragged t (distSq dragged c)
                  (fun x hx he =>
                    absurd (he ▸ minDist?_le dragged t m ht x hx)
                      (not_le.mpr hdm))]
            simp [List.find?_cons]
          simp [snapStep, hm, hdc, hmin, hfind]
        · have hge : ¬ (min m (distSq dragged c) < snapThresholdSq) :=
            not_lt.mpr (le_min (not_lt.mp hm) (not_lt.mp hdc))
          simp [snapStep, hm, hdc, hge]

theorem foldl_flatMap {α β γ : Type} (f : α → List β) (g : γ → β → γ) :
    ∀ (l : List α) (a : γ),
      (l.flatMap f).foldl g a = l.foldl (fun acc x => (f x).foldl g acc) a := by
  intro l
  induction l with
  | nil => intro a; rfl
  | cons x t ih =>
    intro a
    rw [List.flatMap_cons, List.foldl_append, List.foldl_cons, ih]

/-- The nested per-widget loop equals the fold over the flattened
candidate enumeration. -/
theorem snapFold_eq (dragged : Rect) (nm : String)
    (widgets : List (String × Rect)) :
    snapFold dragged nm widgets
      = (candList dragged nm widgets).foldl (snapStep dragged) none := by
  rw [candList, foldl_flatMap]
  unfold snapFold
  generalize (none : Option (Cand × Int)) = acc
  induction widgets generalizing acc with
  | nil => rfl
  | cons p t ih =>
    by_cases hp : p.1 = nm
    · simp [List.filter_cons, hp, ih]
    · simp [List.filter_cons, hp, ih]

/-- C1: the winning snap of a drag release is exactly the
spec-described choice — enumerating all other widgets in insertion
order with directions right-of, left-of, above, below, a snap is
accepted iff the globally minimum Euclidean distance between the
dragged rectangle's top-left corner and a candidate's is strictly below
150 (squared distances compared against 150², which is equivalent for
exact arithmetic), and among equidistant minima the first candidate in
enumeration order wins; otherwise no snap. -/
theorem snap_selection_matches_global_min (dragged : Rect) (nm : String)
    (widgets : List (String × Rect)) :
    bestSnap dragged nm widgets
      = specSnapChoice dragged (candList dragged nm widgets) := by
  rw [bestSnap, snapFold_eq, foldl_snapStep_spec]
  rw [specSnapPair, specSnapChoice]
  cases minDist? dragged (candList dragged nm widgets) with
  | none => rfl
  | some m =>
    by_cases hm : m < snapThresholdSq
    · simp only [hm, if_true]
      cases (candList dragged nm widgets).find?
          (fun c => distSq dragged c == m) with
      | none => rfl
      | some c => rfl
    · simp [hm]

/-- C2 (counterexample): a winning snap candidate that would overlap a
third widget is vetoed, but the engine does **not** fall back to the
anchor list — it leaves the widget at its dropped position — even
though the first anchor `(20, 20)` is overlap-free, refuting the
claimed fallback-on-veto behaviour. -/
theorem snap_overlap_fallback_counterexample :
    bestSnap ⟨390, 95, 100, 60⟩ "D"
        [("D", ⟨390, 95, 100, 60⟩), ("A", ⟨300, 100, 100, 60⟩),
         ("B", ⟨400, 100, 100, 60⟩)]
      = some ⟨400, 100, "A", "right-of"⟩ ∧
    would_overlap ⟨390, 95, 100, 60⟩ "D" 400 100
        [("D", ⟨390, 95, 100, 60⟩), ("A", ⟨300, 100, 100, 60⟩),
         ("B", ⟨400, 100, 100, 60⟩)] = true ∧
    find_non_overlapping_position ⟨390, 95, 100, 60⟩ "D"
        [("D", ⟨390, 95, 100, 60⟩), ("A", ⟨300, 100, 100, 60⟩),
         ("B", ⟨400, 100, 100, 60⟩)] = some (20, 20) ∧
    snap_widget_position ⟨390, 95, 100, 60⟩ "D"
        [("D", ⟨390, 95, 100, 60⟩), ("A", ⟨300, 100, 100, 60⟩),
         ("B", ⟨400, 100, 100, 60⟩)]
      = { newPos := none, pendingAdd := none } ∧
    ({ newPos := none, pendingAdd := none } : SnapOutcome).newPos
      ≠ some (20, 20) := by
  refine ⟨by decide, by decide, by decide, by decide, by decide⟩

/-- C2 (amended): when the winning snap candidate's position would
overlap another widget, the snap is never committed — no move and no
pending change — and the dragged widget simply stays at its dropped
position; the fixed anchor-list fallback runs only in the no-candidate
case. -/
theorem snap_overlap_veto_noop (dragged : Rect) (nm : String)
    (widgets : List (String × Rect)) (c : Cand)
    (h1 : bestSnap dragged nm widgets = some c)
    (h2 : would_overlap dragged nm c.x c.y widgets = true) :
    snap_widget_position dragged nm widgets
      = { newPos := none, pendingAdd := none } := by
  unfold snap_widget_position
  rw [h1]
  simp [h2]

/-- Witness for the amended C2 at the counterexample configuration. -/
theorem snap_overlap_veto_noop_witness :
    bestSnap ⟨390, 95, 100, 60⟩ "E"
        [("E", ⟨390, 95, 100, 60⟩), ("F", ⟨300, 100, 100, 60⟩),
         ("G", ⟨400, 100, 100, 60⟩)]
      = some ⟨400, 100, "F", "right-of"⟩ ∧
    would_overlap ⟨390, 95, 100, 60⟩ "E" 400 100
        [("E", ⟨390, 95, 100, 60⟩), ("F", ⟨300, 100, 100, 60⟩),
         ("G", ⟨400, 100, 100, 60⟩)] = true ∧
    snap_widget_position ⟨390, 95, 100, 60⟩ "E"
        [("E", ⟨390, 95, 100, 60⟩), ("F", ⟨300, 100, 100, 60⟩),
         ("G", ⟨400, 100, 100, 60⟩)]
      = { newPos := none, pendingAdd := none } :=
  ⟨by decide, by decide,
   snap_overlap_veto_noop ⟨390, 95, 100, 60⟩ "E"
     [("E", ⟨390, 95, 100, 60⟩), ("F", ⟨300, 100, 100, 60⟩),
      ("G", ⟨400, 100, 100, 60⟩)] ⟨400, 100, "F", "right-of"⟩
     (by decide) (by decide)⟩

end XrandrGui
